import Mathlib

/-!
Verification of the awsbastion credential acquisition flow.

This file gives a shallow embedding of the Go package awsbastion
(src/main.go, src/pinger.go).  External collaborators (the AWS SDK calls,
the filesystem, the probe) are modelled as an oracle environment `Env`
whose fields give the outcome of each external call, indexed by the pass
number (0 = first pass, 1 = the rerun pass).  The on-disk cache file is a
single `Option String` (absent, or present with raw bytes); the JSON
marshalling of the flat credentials record performed by encoding/json is
modelled by an executable encoder and parser over the raw bytes.
Effects are threaded through an explicit state `St` that also records a
trace of observable events (cache loads, derivations, MFA prompts, stores,
probe checks, purges), so that counting and ordering properties of the
flow can be stated.
-/

namespace AwsBastion

/-- The flat credentials record, Go struct credentials.Value:
fields AccessKeyID, SecretAccessKey, SessionToken, ProviderName. -/
structure Value where
  accessKeyID : String
  secretAccessKey : String
  sessionToken : String
  providerName : String
deriving DecidableEq, Repr

/-- The session handle returned to the caller, reduced to its observable
content: the credentials the session was built from
(Go session.NewSession(cfg.WithCredentials(creds))). -/
structure Session where
  cred : Value
deriving DecidableEq, Repr

/-- Observable events of one run of the flow, in order of occurrence. -/
inductive Event where
  /-- retrieveCredentials was called; hit = true means it returned
  credentials, hit = false means read or unmarshal failed. -/
  | load (hit : Bool)
  /-- bastionAccountCreds (the exchanger derivation) was entered. -/
  | derive
  /-- creds.Get was evaluated on the fresh stscreds provider: the
  assume-role exchange ran, prompting for an MFA code on stdin. -/
  | mfaPrompt
  /-- storeCredentials wrote the marshalled record to the cache file. -/
  | store
  /-- the probe (Ping) was invoked on a session holding cred;
  ok = true means the probe succeeded. -/
  | ping (cred : Value) (ok : Bool)
  /-- purge was invoked; ok = true means os.Remove succeeded. -/
  | purge (ok : Bool)
deriving DecidableEq, Repr

/-- Mutable state threaded through the flow: the cache file contents
(none = file absent) and the trace of events so far. -/
structure St where
  file : Option String
  trace : List Event
deriving DecidableEq, Repr

/-- Append one event to the trace. -/
def push (st : St) (e : Event) : St :=
  { st with trace := st.trace ++ [e] }

/-- Fixed cache file path, const filename in main.go. -/
def filename : String := "bastion_credentials_session.json"

/-- Errors of the flow, one constructor per fmt.Errorf site in the source.
Constructors carry exactly the data the corresponding Go error wraps: a
String when the wrapped cause is an external (SDK, filesystem, json, probe)
error, an AppError when it wraps another error of this package, and
nothing when the Go format call passes no cause.  In particular
pingFatalError carries nothing because the source writes
fmt.Errorf with a %v directive but no argument, and rerunError carries
nothing because the source discards the inner error. -/
inductive AppError where
  /-- couldn't read file ...: wraps the ReadFile error. -/
  | readFileError (cause : String)
  /-- failed to unmarshal file: wraps the json error. -/
  | unmarshalError (cause : String)
  /-- couldn't retrieve the credentials value: wraps the creds.Get error. -/
  | credsGetError (cause : String)
  /-- couldn't write the file: wraps the WriteFile error. -/
  | writeFileError (cause : String)
  /-- failed to create new session for bastion account for profile ... -/
  | bastionSessionError (profile : String) (cause : String)
  /-- failed to store credentials for profile ... and role ... -/
  | storeError (profile : String) (role : String) (cause : AppError)
  /-- couldn't create bastion account credentials. -/
  | bastionCredsError (cause : AppError)
  /-- couldn't create session. -/
  | sessionError (cause : String)
  /-- failed to ping aws servers with created session: the source passes
  no argument for its %v directive, so no cause is wrapped. -/
  | pingFatalError
  /-- couldn't purge the main session: wraps the purge error. -/
  | purgeError (cause : AppError)
  /-- couldn't delete file ...: wraps the os.Remove error. -/
  | removeError (cause : String)
  /-- couldn't create main account session after first ping failed: the
  source discards the error of the recursive call, so no cause is wrapped. -/
  | rerunError
deriving DecidableEq, Repr

/-- The message each error formats to, following the fmt.Errorf format
strings of the source verbatim.  The %v directive of the second-ping
error has no argument in the source, so Go renders it as the literal
text %!v(MISSING). -/
def AppError.render : AppError → String
  | .readFileError c => "couldn't read file " ++ filename ++ ": " ++ c
  | .unmarshalError c => "failed to unmarshal file: " ++ c
  | .credsGetError c => "couldn't retrieve the credentials value: " ++ c
  | .writeFileError c => "couldn't write the file: " ++ c
  | .bastionSessionError p c =>
      "failed to create new session for bastion account for profile " ++ p ++ ": " ++ c
  | .storeError p r c =>
      "failed to store credentials for profile " ++ p ++ " and role " ++ r ++ ": " ++ c.render
  | .bastionCredsError c => "couldn't create bastion account credentials: " ++ c.render
  | .sessionError c => "couldn't create session: " ++ c
  | .pingFatalError => "failed to ping aws servers with created session: %!v(MISSING)"
  | .purgeError c => "couldn't purge the main session: " ++ c.render
  | .removeError c => "couldn't delete file " ++ filename ++ ": " ++ c
  | .rerunError => "couldn't create main account session after first ping failed"

/-! ## JSON marshalling of the credentials record

Modelled from the spec: the on-disk encoding produced by Go
encoding/json on the flat four-string-field struct credentials.Value is
an external library concern; the spec describes it as a flat structured
text encoding (a JSON object) with stable field names.  We model it by an
executable encoder emitting the JSON object in struct field order with
quote and backslash escaping, and an executable parser for exactly that
shape.  Any byte string the parser rejects models an unparseable cache
file (the Corrupt case). -/

/-- Escape one character of a JSON string body. -/
def escChar (c : Char) : List Char :=
  if c = '"' ∨ c = '\\' then ['\\', c] else [c]

/-- Escape a JSON string body. -/
def escList : List Char → List Char
  | [] => []
  | c :: cs => escChar c ++ escList cs

/-- The marshalled bytes of a credentials record, as a character list. -/
def marshalChars (v : Value) : List Char :=
  "\x7b\"AccessKeyID\":\"".data ++ escList v.accessKeyID.data ++ ['"'] ++
  ",\"SecretAccessKey\":\"".data ++ escList v.secretAccessKey.data ++ ['"'] ++
  ",\"SessionToken\":\"".data ++ escList v.sessionToken.data ++ ['"'] ++
  ",\"ProviderName\":\"".data ++ escList v.providerName.data ++ ['"'] ++
  "\x7d".data

/-- json.Marshal of a credentials record. -/
def marshalValue (v : Value) : String :=
  ⟨marshalChars v⟩

/-- Strip an expected literal token from the front of the input. -/
def stripTok : List Char → List Char → Option (List Char)
  | [], l => some l
  | _ :: _, [] => none
  | t :: ts, c :: cs => if c = t then stripTok ts cs else none

/-- Parse a JSON string body up to and including its closing quote,
undoing the escaping; returns the body and the remaining input. -/
def parseQuoted : List Char → Option (List Char × List Char)
  | [] => none
  | c :: rest =>
    if c = '"' then some ([], rest)
    else if c = '\\' then
      match rest with
      | [] => none
      | d :: rest2 =>
        if d = '"' ∨ d = '\\' then
          (parseQuoted rest2).map (fun p => (d :: p.1, p.2))
        else none
    else (parseQuoted rest).map (fun p => (c :: p.1, p.2))

/-- Parse the marshalled bytes of a credentials record. -/
def unmarshalChars (l : List Char) : Option Value := do
  let l ← stripTok "\x7b\"AccessKeyID\":\"".data l
  let (a, l) ← parseQuoted l
  let l ← stripTok ",\"SecretAccessKey\":\"".data l
  let (s, l) ← parseQuoted l
  let l ← stripTok ",\"SessionToken\":\"".data l
  let (t, l) ← parseQuoted l
  let l ← stripTok ",\"ProviderName\":\"".data l
  let (pn, l) ← parseQuoted l
  let l ← stripTok "\x7d".data l
  match l with
  | [] => some ⟨⟨a⟩, ⟨s⟩, ⟨t⟩, ⟨pn⟩⟩
  | _ => none

/-- json.Unmarshal of a cache file body into a credentials record;
none models an unmarshalling failure (corrupt file). -/
def unmarshalValue (s : String) : Option Value :=
  unmarshalChars s.data

/-! ## The environment oracle

Outcomes of the external collaborators (AWS SDK calls, filesystem write
and delete, the probe), indexed by the pass number of the flow: pass 0 is
the initial call (rerun = false), pass 1 is the single retry call
(rerun = true).  Each external call happens at most once per pass. -/

/-- Oracle for every external call of one SessionWithConfig invocation. -/
structure Env where
  /-- profile argument of the call. -/
  profile : String
  /-- assumedRoleARN argument of the call. -/
  role : String
  /-- message of the ReadFile error when the cache file is absent. -/
  readErrMsg : String
  /-- message of the json error when the cache file does not parse. -/
  unmarshalErrMsg : String
  /-- whether session.NewSessionWithOptions succeeds on pass p. -/
  bastionSessionOk : Nat → Bool
  /-- its error message when it fails on pass p. -/
  bastionSessionErrMsg : Nat → String
  /-- outcome of creds.Get, i.e. of the assume-role exchange behind the
  MFA prompt, on pass p: the derived credentials or an error message. -/
  exchangeResult : Nat → Except String Value
  /-- whether ioutil.WriteFile succeeds on pass p. -/
  writeOk : Nat → Bool
  /-- its error message when it fails on pass p. -/
  writeErrMsg : Nat → String
  /-- whether session.NewSession for the main account succeeds on pass p. -/
  mainSessionOk : Nat → Bool
  /-- its error message when it fails on pass p. -/
  mainSessionErrMsg : Nat → String
  /-- outcome of the probe on pass p: none = success, some msg = failure. -/
  pingResult : Nat → Option String
  /-- whether os.Remove succeeds, given that the file exists. -/
  removeOk : Bool
  /-- its error message when it fails. -/
  removeErrMsg : String

/-! ## The flow, translated from src/main.go -/

/-- retrieveCredentials: read the cache file, unmarshal it, and return the
record as static credentials; both an absent file and an unparseable file
are errors. -/
def retrieveCredentials (env : Env) (st : St) : Except AppError Value × St :=
  match st.file with
  | none =>
    (.error (.readFileError env.readErrMsg), push st (.load false))
  | some s =>
    match unmarshalValue s with
    | none => (.error (.unmarshalError env.unmarshalErrMsg), push st (.load false))
    | some v => (.ok v, push st (.load true))

/-- storeCredentials: evaluate creds.Get (getRes is its outcome), marshal
the value, and write the cache file.  json.Marshal of a flat record of
strings cannot fail, so only the Get and the write can.  On success the
credentials value is returned for the caller to hand back (in Go it stays
inside the creds object). -/
def storeCredentials (env : Env) (p : Nat) (getRes : Except String Value) (st : St) :
    Except AppError Value × St :=
  match getRes with
  | .error e => (.error (.credsGetError e), st)
  | .ok v =>
    if env.writeOk p then
      (.ok v, push { st with file := some (marshalValue v) } .store)
    else
      (.error (.writeFileError (env.writeErrMsg p)), st)

/-- bastionAccountCreds: create the bastion session (options include the
stdin MFA token provider), build lazy assume-role credentials for the
target role, and persist them via storeCredentials — whose creds.Get call
performs the exchange and prompts for the MFA code.  The store error is
wrapped; on success the derived credentials are returned. -/
def bastionAccountCreds (env : Env) (p : Nat) (st : St) : Except AppError Value × St :=
  let st1 := push st .derive
  if env.bastionSessionOk p then
    let st2 := push st1 .mfaPrompt
    match storeCredentials env p (env.exchangeResult p) st2 with
    | (.error e, st3) => (.error (.storeError env.profile env.role e), st3)
    | (.ok v, st3) => (.ok v, st3)
  else
    (.error (.bastionSessionError env.profile (env.bastionSessionErrMsg p)), st1)

/-- purge: os.Remove of the cache file; removal succeeds when the file
exists and the oracle reports no IO error, and empties the file slot. -/
def purge (env : Env) (st : St) : Except AppError Unit × St :=
  if env.removeOk && st.file.isSome then
    (.ok (), push { st with file := none } (.purge true))
  else
    (.error (.removeError env.removeErrMsg), push st (.purge false))

/-- Candidate acquisition, the first statements of
sessionWithConfigWrapper: try the cache, and on any cache failure derive
via bastionAccountCreds, wrapping its error. -/
def acquireCandidate (env : Env) (p : Nat) (st : St) : Except AppError Value × St :=
  match retrieveCredentials env st with
  | (.ok v, st1) => (.ok v, st1)
  | (.error _, st1) =>
    match bastionAccountCreds env p st1 with
    | (.ok v, st2) => (.ok v, st2)
    | (.error e, st2) => (.error (.bastionCredsError e), st2)

/-- The rerun = true instance of sessionWithConfigWrapper from
src/main.go.  In the source this is the same function called with
rerun = true; that call never recurses (a probe failure with rerun set is
fatal), so the instance is a plain definition here, which keeps the whole
flow a structurally terminating computation.  It runs pass 1: acquire a
candidate, build the session, probe it, and fail fatally on a probe
failure. -/
def sessionWithConfigWrapperRerun (env : Env) (st : St) : Except AppError Session × St :=
  match acquireCandidate env 1 st with
  | (.error e, st1) => (.error e, st1)
  | (.ok v, st1) =>
    if env.mainSessionOk 1 then
      match env.pingResult 1 with
      | none => (.ok ⟨v⟩, push st1 (.ping v true))
      | some _ => (.error .pingFatalError, push st1 (.ping v false))
    else
      (.error (.sessionError (env.mainSessionErrMsg 1)), st1)

/-- sessionWithConfigWrapper from src/main.go, with the rerun flag as an
explicit Bool argument.  The arm rerun = true is the instance above; the
arm rerun = false runs pass 0 and, when the probe fails, purges the cache
and re-enters the flow once with rerun = true (the recursive call of the
source), replacing the inner error (the source discards it) by the rerun
error. -/
def sessionWithConfigWrapper (env : Env) : Bool → St → Except AppError Session × St
  | true, st => sessionWithConfigWrapperRerun env st
  | false, st =>
    match acquireCandidate env 0 st with
    | (.error e, st1) => (.error e, st1)
    | (.ok v, st1) =>
      if env.mainSessionOk 0 then
        match env.pingResult 0 with
        | none => (.ok ⟨v⟩, push st1 (.ping v true))
        | some _ =>
          let st2 := push st1 (.ping v false)
          match purge env st2 with
          | (.error pe, st3) => (.error (.purgeError pe), st3)
          | (.ok _, st3) =>
            match sessionWithConfigWrapperRerun env st3 with
            | (.error _, st4) => (.error .rerunError, st4)
            | (.ok s2, st4) => (.ok s2, st4)
      else
        (.error (.sessionError (env.mainSessionErrMsg 0)), st1)

/-- SessionWithConfig: the public entry point, starting the wrapper with
rerun = false on an initial cache file f0 and an empty trace. -/
def SessionWithConfig (env : Env) (f0 : Option String) : Except AppError Session × St :=
  sessionWithConfigWrapper env false ⟨f0, []⟩

/-! ## Trace observations -/

/-- Number of trace events satisfying a predicate. -/
def countIf (p : Event → Bool) (t : List Event) : Nat :=
  (t.filter p).length

/-- Event is a derivation (bastionAccountCreds invocation). -/
def isDeriveEv : Event → Bool
  | .derive => true
  | _ => false

/-- Event is an MFA prompt (creds.Get evaluation). -/
def isPromptEv : Event → Bool
  | .mfaPrompt => true
  | _ => false

/-- Event is a probe invocation. -/
def isPingEv : Event → Bool
  | .ping _ _ => true
  | _ => false

/-- Event is a purge invocation. -/
def isPurgeEv : Event → Bool
  | .purge _ => true
  | _ => false

/-- Events strictly before the first probe invocation. -/
def beforeFirstPing (t : List Event) : List Event :=
  t.takeWhile (fun e => !isPingEv e)

/-- A cache file state on which retrieveCredentials fails: the file is
absent (NotFound) or present but unparseable (Corrupt). -/
def missFile (f : Option String) : Prop :=
  f = none ∨ ∃ s, f = some s ∧ unmarshalValue s = none

/-! ## Concrete records and environments for witnesses -/

/-- A sample credentials record. -/
def valA : Value := ⟨"AKIDA", "SKA", "STA", "AssumeRoleProvider"⟩

/-- A second, distinct sample credentials record. -/
def valB : Value := ⟨"AKIDB", "SKB", "STB", "AssumeRoleProvider"⟩

/-- Environment where every external call succeeds; the exchange yields
valA on the first pass and valB on the rerun pass. -/
def envBase : Env := {
  profile := "poweruser", role := "arn:aws:iam::1:role/power",
  readErrMsg := "no such file", unmarshalErrMsg := "invalid character",
  bastionSessionOk := fun _ => true, bastionSessionErrMsg := fun _ => "opt err",
  exchangeResult := fun p => if p = 0 then Except.ok valA else Except.ok valB,
  writeOk := fun _ => true, writeErrMsg := fun _ => "disk full",
  mainSessionOk := fun _ => true, mainSessionErrMsg := fun _ => "cfg err",
  pingResult := fun _ => none, removeOk := true, removeErrMsg := "permission denied" }

/-- Environment where the probe fails on every invocation. -/
def envPingFail : Env :=
  { envBase with pingResult := fun _ => some "AccessDenied" }

/-- Environment where the probe fails on the first pass only. -/
def envFirstPingFail : Env :=
  { envBase with pingResult := fun p => if p = 0 then some "ExpiredToken" else none }

/-- Environment where the probe always fails and os.Remove fails. -/
def envNoRemove : Env :=
  { envPingFail with removeOk := false }

/-- Environment where the cache file write fails. -/
def envNoWrite : Env :=
  { envBase with writeOk := fun _ => false }

/-! ## Properties of the cache file encoding -/

theorem stripTok_self (tok rest : List Char) :
    stripTok tok (tok ++ rest) = some rest := by
  induction tok with
  | nil => simp [stripTok]
  | cons t ts ih => simp [stripTok, ih]

theorem parseQuoted_escList (s rest : List Char) :
    parseQuoted (escList s ++ '"' :: rest) = some (s, rest) := by
  induction s with
  | nil =>
    rw [show escList [] ++ '"' :: rest = '"' :: rest by simp [escList]]
    rw [parseQuoted.eq_def]
    simp
  | cons c cs ih =>
    by_cases h : c = '"' ∨ c = '\\'
    · have hne : ¬('\\' = '"') := by decide
      simp [escList, escChar, h, parseQuoted, hne, ih]
    · push_neg at h
      rw [show escList (c :: cs) ++ '"' :: rest = c :: (escList cs ++ '"' :: rest) by
        simp [escList, escChar, h.1, h.2]]
      rw [parseQuoted.eq_def]
      simp [h.1, h.2, ih]

/-- Round trip of the cache file encoding: parsing the marshalled bytes
of any credentials record returns that record exactly. -/
theorem unmarshal_marshal (v : Value) :
    unmarshalValue (marshalValue v) = some v := by
  have h1 := parseQuoted_escList v.accessKeyID.data
  have h2 := parseQuoted_escList v.secretAccessKey.data
  have h3 := parseQuoted_escList v.sessionToken.data
  have h4 := parseQuoted_escList v.providerName.data
  simp only [unmarshalValue, marshalValue, marshalChars, unmarshalChars,
    List.append_assoc, List.cons_append, List.nil_append, List.singleton_append]
  simp [stripTok, h1, h2, h3, h4]

/-! ## Generic trace lemmas -/

theorem countIf_append (p : Event → Bool) (t u : List Event) :
    countIf p (t ++ u) = countIf p t + countIf p u := by
  simp [countIf, List.filter_append]

theorem not_mem_of_countIf_zero {p : Event → Bool} {t : List Event}
    (h : countIf p t = 0) {e : Event} (he : p e = true) : e ∉ t := by
  intro hmem
  have hnil : t.filter p = [] := List.length_eq_zero.mp h
  have := (List.filter_eq_nil_iff.mp hnil) e hmem
  exact this he

/-! ## Characterizations of the candidate acquisition step -/

theorem countIf_nil (p : Event → Bool) : countIf p [] = 0 := rfl

theorem countIf_cons (p : Event → Bool) (e : Event) (t : List Event) :
    countIf p (e :: t) = (cond (p e) 1 0) + countIf p t := by
  rcases h : p e with _ | _
  · simp [countIf, List.filter_cons, h]
  · simp [countIf, List.filter_cons, h]
    omega

theorem retrieveCredentials_miss (env : Env) (st : St) (hmiss : missFile st.file) :
    ∃ e, retrieveCredentials env st = (.error e, push st (.load false)) := by
  rcases hmiss with hf | ⟨s, hf, hu⟩
  · exact ⟨AppError.readFileError env.readErrMsg, by simp [retrieveCredentials, hf]⟩
  · exact ⟨AppError.unmarshalError env.unmarshalErrMsg, by simp [retrieveCredentials, hf, hu]⟩

theorem acquireCandidate_hit (env : Env) (p : Nat) (st : St) (s : String) (v : Value)
    (hf : st.file = some s) (hu : unmarshalValue s = some v) :
    acquireCandidate env p st = (.ok v, push st (.load true)) := by
  simp [acquireCandidate, retrieveCredentials, hf, hu]

theorem acquireCandidate_miss_ok (env : Env) (p : Nat) (st : St) (w : Value)
    (hmiss : missFile st.file)
    (hb : env.bastionSessionOk p = true) (hx : env.exchangeResult p = .ok w)
    (hw : env.writeOk p = true) :
    acquireCandidate env p st =
      (.ok w, ⟨some (marshalValue w),
        st.trace ++ [.load false, .derive, .mfaPrompt, .store]⟩) := by
  obtain ⟨e, hr⟩ := retrieveCredentials_miss env st hmiss
  simp [acquireCandidate, hr, bastionAccountCreds, storeCredentials, push, hb, hx, hw]

/-- On a cache miss, the acquisition step appends the load-miss event, a
single derivation, and then no further load, derive, ping or purge
events and at most one prompt. -/
theorem acquireCandidate_miss_trace (env : Env) (p : Nat) (st : St)
    (hmiss : missFile st.file) :
    ∃ t, (acquireCandidate env p st).2.trace = st.trace ++ Event.load false :: Event.derive :: t ∧
      countIf isPurgeEv t = 0 ∧ countIf isPingEv t = 0 ∧
      countIf isDeriveEv t = 0 ∧ countIf isPromptEv t ≤ 1 := by
  obtain ⟨e, hr⟩ := retrieveCredentials_miss env st hmiss
  rcases hb : env.bastionSessionOk p with _ | _
  · exact ⟨[], by simp [acquireCandidate, hr, bastionAccountCreds, push, hb],
      by decide, by decide, by decide, by decide⟩
  · rcases hx : env.exchangeResult p with e2 | w
    · exact ⟨[.mfaPrompt], by simp [acquireCandidate, hr, bastionAccountCreds,
        storeCredentials, push, hb, hx], by decide, by decide, by decide, by decide⟩
    · rcases hw : env.writeOk p with _ | _
      · exact ⟨[.mfaPrompt], by simp [acquireCandidate, hr, bastionAccountCreds,
          storeCredentials, push, hb, hx, hw], by decide, by decide, by decide, by decide⟩
      · exact ⟨[.mfaPrompt, .store], by simp [acquireCandidate, hr, bastionAccountCreds,
          storeCredentials, push, hb, hx, hw], by decide, by decide, by decide, by decide⟩

/-- The acquisition step appends a trace segment that contains no ping
and no purge events, at most one derivation, and at most one prompt. -/
theorem acquireCandidate_trace (env : Env) (p : Nat) (st : St) :
    ∃ t, (acquireCandidate env p st).2.trace = st.trace ++ t ∧
      countIf isPurgeEv t = 0 ∧ countIf isPingEv t = 0 ∧
      countIf isDeriveEv t ≤ 1 ∧ countIf isPromptEv t ≤ 1 := by
  by_cases hmiss : missFile st.file
  · obtain ⟨t, ht, h1, h2, h3, h4⟩ := acquireCandidate_miss_trace env p st hmiss
    refine ⟨Event.load false :: Event.derive :: t, ht, ?_, ?_, ?_, ?_⟩
    · simpa [countIf_cons, isPurgeEv] using h1
    · simpa [countIf_cons, isPingEv] using h2
    · simp [countIf_cons, isDeriveEv, h3]
    · simpa [countIf_cons, isPromptEv] using h4
  · rcases hf : st.file with _ | s
    · exact absurd (Or.inl hf) hmiss
    · rcases hu : unmarshalValue s with _ | v
      · exact absurd (Or.inr ⟨s, hf, hu⟩) hmiss
      · exact ⟨[.load true], by
          simp [acquireCandidate_hit env p st s v hf hu, push], by decide, by decide,
          by decide, by decide⟩

/-! ## Characterization of the rerun pass -/

/-- The rerun pass (rerun = true) appends a trace segment with no purge
events, at most one derivation and at most one prompt; and whenever the
probe fails on the rerun pass, the rerun pass returns an error. -/
theorem wrapperTrue_spec (env : Env) (st : St) :
    ∃ t, (sessionWithConfigWrapperRerun env st).2.trace = st.trace ++ t ∧
      countIf isPurgeEv t = 0 ∧ countIf isDeriveEv t ≤ 1 ∧ countIf isPromptEv t ≤ 1 ∧
      ((env.pingResult 1).isSome = true →
        ∃ e, (sessionWithConfigWrapperRerun env st).1 = Except.error e) := by
  obtain ⟨t, ht, hpu, hpi, hd, hp⟩ := acquireCandidate_trace env 1 st
  rcases hq : acquireCandidate env 1 st with ⟨r, st1⟩
  rw [hq] at ht; dsimp only at ht
  rcases r with e | v
  · exact ⟨t, by simp [sessionWithConfigWrapperRerun, hq, ht], hpu, hd, hp,
      fun _ => ⟨e, by simp [sessionWithConfigWrapperRerun, hq]⟩⟩
  · rcases hm : env.mainSessionOk 1 with _ | _
    · exact ⟨t, by simp [sessionWithConfigWrapperRerun, hq, hm, ht], hpu, hd, hp,
        fun _ => ⟨AppError.sessionError (env.mainSessionErrMsg 1),
          by simp [sessionWithConfigWrapperRerun, hq, hm]⟩⟩
    · rcases hping : env.pingResult 1 with _ | m
      · refine ⟨t ++ [Event.ping v true], ?_, ?_, ?_, ?_, ?_⟩
        · simp [sessionWithConfigWrapperRerun, hq, hm, hping, push, ht]
        · simp [countIf_append, countIf_cons, countIf_nil, isPurgeEv, hpu]
        · simp only [countIf_append, countIf_cons, countIf_nil, isDeriveEv, cond]
          omega
        · simp only [countIf_append, countIf_cons, countIf_nil, isPromptEv, cond]
          omega
        · intro hc
          simp [hping] at hc
      · refine ⟨t ++ [Event.ping v false], ?_, ?_, ?_, ?_, ?_⟩
        · simp [sessionWithConfigWrapperRerun, hq, hm, hping, push, ht]
        · simp [countIf_append, countIf_cons, countIf_nil, isPurgeEv, hpu]
        · simp only [countIf_append, countIf_cons, countIf_nil, isDeriveEv, cond]
          omega
        · simp only [countIf_append, countIf_cons, countIf_nil, isPromptEv, cond]
          omega
        · exact fun _ => ⟨AppError.pingFatalError,
            by simp [sessionWithConfigWrapperRerun, hq, hm, hping]⟩

/-! ## Claim C1: bounded retry when the probe always fails -/

/-- C1: for every environment (profile, role, probe, cache state), if the
probe fails on every invocation, then SessionWithConfig returns an error
(the model is a total function, so the call terminates), and its trace
records at most one purge and at most two derivations. -/
theorem acquire_bounded_retry (env : Env) (f0 : Option String)
    (hping : ∀ n, (env.pingResult n).isSome = true) :
    (∃ e, (SessionWithConfig env f0).1 = Except.error e) ∧
    countIf isPurgeEv (SessionWithConfig env f0).2.trace ≤ 1 ∧
    countIf isDeriveEv (SessionWithConfig env f0).2.trace ≤ 2 := by
  obtain ⟨t, ht, hpu, hpi, hd, hp⟩ := acquireCandidate_trace env 0 ⟨f0, []⟩
  rcases hq : acquireCandidate env 0 ⟨f0, []⟩ with ⟨r, st1⟩
  rw [hq] at ht; dsimp only at ht
  rw [List.nil_append] at ht
  rcases r with e | v
  · refine ⟨⟨e, ?_⟩, ?_, ?_⟩ <;> simp [SessionWithConfig, sessionWithConfigWrapper, hq, ht] <;> omega
  · rcases hm : env.mainSessionOk 0 with _ | _
    · refine ⟨⟨AppError.sessionError (env.mainSessionErrMsg 0), ?_⟩, ?_, ?_⟩ <;>
        simp [SessionWithConfig, sessionWithConfigWrapper, hq, hm, ht] <;> omega
    · rcases hping0 : env.pingResult 0 with _ | m
      · exact absurd (hping 0) (by simp [hping0])
      · by_cases hpg : env.removeOk && st1.file.isSome
        · have houter : SessionWithConfig env f0 =
              (match sessionWithConfigWrapperRerun env
                  ⟨none, t ++ [Event.ping v false, Event.purge true]⟩ with
                | (Except.error _, st4) => (Except.error AppError.rerunError, st4)
                | (Except.ok s2, st4) => (Except.ok s2, st4)) := by
            simp [SessionWithConfig, sessionWithConfigWrapper, hq, hm, hping0, purge, push,
              hpg, ht]
          obtain ⟨t2, ht2, hpu2, hd2, hp2, herr2⟩ :=
            wrapperTrue_spec env ⟨none, t ++ [Event.ping v false, Event.purge true]⟩
          obtain ⟨e2, he2⟩ := herr2 (hping 1)
          rcases hw2 : sessionWithConfigWrapperRerun env
              ⟨none, t ++ [Event.ping v false, Event.purge true]⟩ with ⟨r2, st4⟩
          rw [hw2] at ht2 he2; dsimp only at ht2 he2
          subst he2
          rw [houter, hw2]
          refine ⟨⟨AppError.rerunError, rfl⟩, ?_, ?_⟩
          · show countIf isPurgeEv st4.trace ≤ 1
            rw [ht2]
            simp [countIf_append, countIf_cons, countIf_nil, isPurgeEv]
            omega
          · show countIf isDeriveEv st4.trace ≤ 2
            rw [ht2]
            simp [countIf_append, countIf_cons, countIf_nil, isDeriveEv]
            omega
        · refine ⟨⟨AppError.purgeError (AppError.removeError env.removeErrMsg), ?_⟩, ?_, ?_⟩
          · simp [SessionWithConfig, sessionWithConfigWrapper, hq, hm, hping0, purge, push, hpg]
          · simp [SessionWithConfig, sessionWithConfigWrapper, hq, hm, hping0, purge, push,
              hpg, ht, countIf_append, countIf_cons, countIf_nil, isPurgeEv]
            omega
          · simp [SessionWithConfig, sessionWithConfigWrapper, hq, hm, hping0, purge, push,
              hpg, ht, countIf_append, countIf_cons, countIf_nil, isDeriveEv]
            omega

/-- Witness for C1: in the all-failing-probe environment, starting from an
empty cache, the call returns an error with at most one purge and at most
two derivations. -/
theorem acquire_bounded_retry_witness :
    (∀ n, ((envPingFail).pingResult n).isSome = true) ∧
    ((∃ e, (SessionWithConfig envPingFail none).1 = Except.error e) ∧
     countIf isPurgeEv (SessionWithConfig envPingFail none).2.trace ≤ 1 ∧
     countIf isDeriveEv (SessionWithConfig envPingFail none).2.trace ≤ 2) :=
  ⟨fun _ => rfl, acquire_bounded_retry envPingFail none (fun _ => rfl)⟩

/-! ## Claim C2: how many MFA prompts one call can issue -/

/-- C2 (amended): in one SessionWithConfig invocation the MFA prompt, and
the exchanger derivation that issues it, is invoked at most twice — not
at most once: see the counterexample below. -/
theorem acquire_mfa_at_most_twice (env : Env) (f0 : Option String) :
    countIf isPromptEv (SessionWithConfig env f0).2.trace ≤ 2 ∧
    countIf isDeriveEv (SessionWithConfig env f0).2.trace ≤ 2 := by
  obtain ⟨t, ht, hpu, hpi, hd, hp⟩ := acquireCandidate_trace env 0 ⟨f0, []⟩
  rcases hq : acquireCandidate env 0 ⟨f0, []⟩ with ⟨r, st1⟩
  rw [hq] at ht; dsimp only at ht
  rw [List.nil_append] at ht
  rcases r with e | v
  · constructor <;>
      · simp [SessionWithConfig, sessionWithConfigWrapper, hq, ht]
        omega
  · rcases hm : env.mainSessionOk 0 with _ | _
    · constructor <;>
        · simp [SessionWithConfig, sessionWithConfigWrapper, hq, hm, ht]
          omega
    · rcases hping0 : env.pingResult 0 with _ | m
      · constructor <;>
          · simp [SessionWithConfig, sessionWithConfigWrapper, hq, hm, hping0, push, ht,
              countIf_append, countIf_cons, countIf_nil, isPromptEv, isDeriveEv]
            omega
      · by_cases hpg : env.removeOk && st1.file.isSome
        · have houter : SessionWithConfig env f0 =
              (match sessionWithConfigWrapperRerun env
                  ⟨none, t ++ [Event.ping v false, Event.purge true]⟩ with
                | (Except.error _, st4) => (Except.error AppError.rerunError, st4)
                | (Except.ok s2, st4) => (Except.ok s2, st4)) := by
            simp [SessionWithConfig, sessionWithConfigWrapper, hq, hm, hping0, purge, push,
              hpg, ht]
          obtain ⟨t2, ht2, hpu2, hd2, hp2, herr2⟩ :=
            wrapperTrue_spec env ⟨none, t ++ [Event.ping v false, Event.purge true]⟩
          rcases hw2 : sessionWithConfigWrapperRerun env
              ⟨none, t ++ [Event.ping v false, Event.purge true]⟩ with ⟨r2, st4⟩
          rw [hw2] at ht2; dsimp only at ht2
          rw [houter, hw2]
          rcases r2 with e2 | s2 <;>
            · constructor
              · show countIf isPromptEv st4.trace ≤ 2
                rw [ht2]
                simp [countIf_append, countIf_cons, countIf_nil, isPromptEv]
                omega
              · show countIf isDeriveEv st4.trace ≤ 2
                rw [ht2]
                simp [countIf_append, countIf_cons, countIf_nil, isDeriveEv]
                omega
        · constructor <;>
            · simp [SessionWithConfig, sessionWithConfigWrapper, hq, hm, hping0, purge, push,
                hpg, ht, countIf_append, countIf_cons, countIf_nil, isPromptEv, isDeriveEv]
              omega

/-- Counterexample to C2 as stated: with an empty cache and a probe that
fails on the first pass, a single SessionWithConfig call prompts for an
MFA code twice (one derivation on the initial cache miss, a second one
after the purge-and-rederive retry), so the prompt is not invoked at most
once. -/
theorem mfa_once_counterexample :
    ¬ (countIf isPromptEv (SessionWithConfig envFirstPingFail none).2.trace ≤ 1) := by
  decide

/-! ## More trace lemmas -/

theorem beforeFirstPing_no_ping (t : List Event) (h : countIf isPingEv t = 0) :
    beforeFirstPing t = t := by
  induction t with
  | nil => rfl
  | cons e ts ih =>
    rw [countIf_cons] at h
    rcases he : isPingEv e with _ | _
    · rw [he] at h
      simp only [cond] at h
      simp [beforeFirstPing, List.takeWhile_cons, he] at ih ⊢
      exact ih (by omega)
    · rw [he] at h
      simp only [cond] at h
      omega

theorem beforeFirstPing_append_ping (pre : List Event) (h : countIf isPingEv pre = 0)
    (v : Value) (b : Bool) (rest : List Event) :
    beforeFirstPing (pre ++ Event.ping v b :: rest) = pre := by
  induction pre with
  | nil => simp [beforeFirstPing, List.takeWhile_cons, isPingEv]
  | cons e ts ih =>
    rw [countIf_cons] at h
    rcases he : isPingEv e with _ | _
    · rw [he] at h
      simp only [cond] at h
      simp [beforeFirstPing, List.takeWhile_cons, he] at ih ⊢
      exact ih (by omega)
    · rw [he] at h
      simp only [cond] at h
      omega

/-! ## The purge-and-rederive scenario (Scenarios B and C of the spec) -/

/-- Full characterization of one call on a cache hit whose first probe
fails, with a successful purge and a successful re-derivation: the call
loads the cached credential v0, probes it once, purges, re-enters the
flow where the load now misses (the file is gone), derives the fresh
credential w with one MFA prompt, stores it, and probes w — so the retry
pass never uses the previously cached credential.  The result is the new
session on a probe success and the rerun error on a probe failure, and in
both cases the cache file holds the marshalled fresh credential. -/
theorem scenarioBC_spec (env : Env) (s : String) (v0 w : Value) (m : String)
    (hs : unmarshalValue s = some v0)
    (hm0 : env.mainSessionOk 0 = true)
    (hping0 : env.pingResult 0 = some m)
    (hrm : env.removeOk = true)
    (hb1 : env.bastionSessionOk 1 = true) (hx1 : env.exchangeResult 1 = Except.ok w)
    (hw1 : env.writeOk 1 = true) (hm1 : env.mainSessionOk 1 = true) :
    SessionWithConfig env (some s) =
      ((match env.pingResult 1 with
        | none => Except.ok ⟨w⟩
        | some _ => Except.error AppError.rerunError),
       ⟨some (marshalValue w),
        [Event.load true, Event.ping v0 false, Event.purge true, Event.load false,
         Event.derive, Event.mfaPrompt, Event.store,
         Event.ping w (env.pingResult 1).isNone]⟩) := by
  have h1 := acquireCandidate_hit env 0 ⟨some s, []⟩ s v0 rfl hs
  have h2 := acquireCandidate_miss_ok env 1
    ⟨none, [Event.load true, Event.ping v0 false, Event.purge true]⟩ w (Or.inl rfl) hb1 hx1 hw1
  rcases hping1 : env.pingResult 1 with _ | m1 <;>
    simp [SessionWithConfig, sessionWithConfigWrapper, sessionWithConfigWrapperRerun,
      h1, h2, hm0, hping0, purge, push, hrm, hm1, hping1]

/-! ## Claim C3: the retry pass uses a fresh derivation -/

/-- C3: when the first validation fails and the purge succeeds, the
credential probed on the retry pass is the freshly derived w — the trace
shows the re-entered flow re-reads the cache (second load event), misses
(the purge removed the file), derives, and probes only w, never the
previously cached v0 again. -/
theorem retry_pass_fresh_credential (env : Env) (s : String) (v0 w : Value) (m : String)
    (hs : unmarshalValue s = some v0)
    (hm0 : env.mainSessionOk 0 = true)
    (hping0 : env.pingResult 0 = some m)
    (hrm : env.removeOk = true)
    (hb1 : env.bastionSessionOk 1 = true) (hx1 : env.exchangeResult 1 = Except.ok w)
    (hw1 : env.writeOk 1 = true) (hm1 : env.mainSessionOk 1 = true) :
    (SessionWithConfig env (some s)).2.trace =
      [Event.load true, Event.ping v0 false, Event.purge true, Event.load false,
       Event.derive, Event.mfaPrompt, Event.store,
       Event.ping w (env.pingResult 1).isNone] := by
  rw [scenarioBC_spec env s v0 w m hs hm0 hping0 hrm hb1 hx1 hw1 hm1]

/-- Witness for C3: concrete scenario B — the probe rejects the cached
valA once, and the retry pass probes only the fresh valB. -/
theorem retry_pass_fresh_credential_witness :
    unmarshalValue (marshalValue valA) = some valA ∧
    (SessionWithConfig envFirstPingFail (some (marshalValue valA))).2.trace =
      [Event.load true, Event.ping valA false, Event.purge true, Event.load false,
       Event.derive, Event.mfaPrompt, Event.store,
       Event.ping valB (envFirstPingFail.pingResult 1).isNone] :=
  ⟨unmarshal_marshal valA,
   retry_pass_fresh_credential envFirstPingFail (marshalValue valA) valA valB "ExpiredToken"
     (unmarshal_marshal valA) rfl rfl rfl rfl rfl rfl rfl⟩

/-! ## Claim C4: cache round trip -/

/-- C4: storing a credential through the cache and then loading succeeds
and yields a credential equal to it in all fields. -/
theorem store_retrieve_roundtrip (env : Env) (p : Nat) (st : St) (v : Value)
    (hw : env.writeOk p = true) :
    (storeCredentials env p (.ok v) st).1 = .ok v ∧
    (retrieveCredentials env (storeCredentials env p (.ok v) st).2).1 = .ok v := by
  constructor
  · simp [storeCredentials, hw]
  · simp [storeCredentials, retrieveCredentials, push, hw, unmarshal_marshal]

/-- Witness for C4 at the concrete record valA. -/
theorem store_retrieve_roundtrip_witness :
    envBase.writeOk 0 = true ∧
    (storeCredentials envBase 0 (.ok valA) ⟨none, []⟩).1 = .ok valA ∧
    (retrieveCredentials envBase (storeCredentials envBase 0 (.ok valA) ⟨none, []⟩).2).1 =
      .ok valA :=
  ⟨rfl, store_retrieve_roundtrip envBase 0 ⟨none, []⟩ valA rfl⟩

/-! ## Claim C6: happy path touches nothing -/

/-- C6: on a cache hit whose credential passes the probe, the call
returns the session built from the cached credential, the trace contains
no derivation (so the exchanger and its MFA prompt are never invoked),
and the cache file contents are unchanged. -/
theorem happy_path_frame (env : Env) (s : String) (v : Value)
    (hs : unmarshalValue s = some v) (hm : env.mainSessionOk 0 = true)
    (hping : env.pingResult 0 = none) :
    SessionWithConfig env (some s) =
      (Except.ok ⟨v⟩, ⟨some s, [Event.load true, Event.ping v true]⟩) := by
  have h1 := acquireCandidate_hit env 0 ⟨some s, []⟩ s v rfl hs
  simp [SessionWithConfig, sessionWithConfigWrapper, h1, hm, hping, push]

/-- Witness for C6 at the concrete record valA. -/
theorem happy_path_frame_witness :
    unmarshalValue (marshalValue valA) = some valA ∧
    SessionWithConfig envBase (some (marshalValue valA)) =
      (Except.ok ⟨valA⟩, ⟨some (marshalValue valA),
        [Event.load true, Event.ping valA true]⟩) :=
  ⟨unmarshal_marshal valA,
   happy_path_frame envBase (marshalValue valA) valA (unmarshal_marshal valA) rfl rfl⟩

/-! ## Claim C10: the fatal scenario leaves the failed credential cached -/

/-- C10: when the call ends in the fatal second-validation error
(Scenario C: cache hit, both probes fail, purge and re-derivation
succeed), the returned error is the rerun error and the cache file is
left holding the freshly derived credential that just failed validation —
it is not purged or rolled back. -/
theorem fatal_leaves_failed_credential (env : Env) (s : String) (v0 w : Value) (m0 m1 : String)
    (hs : unmarshalValue s = some v0)
    (hm0 : env.mainSessionOk 0 = true)
    (hping0 : env.pingResult 0 = some m0)
    (hrm : env.removeOk = true)
    (hb1 : env.bastionSessionOk 1 = true) (hx1 : env.exchangeResult 1 = Except.ok w)
    (hw1 : env.writeOk 1 = true) (hm1 : env.mainSessionOk 1 = true)
    (hping1 : env.pingResult 1 = some m1) :
    (SessionWithConfig env (some s)).1 = Except.error AppError.rerunError ∧
    (SessionWithConfig env (some s)).2.file = some (marshalValue w) := by
  rw [scenarioBC_spec env s v0 w m0 hs hm0 hping0 hrm hb1 hx1 hw1 hm1]
  simp [hping1]

/-- Witness for C10: concrete scenario C with cached valA and fresh valB. -/
theorem fatal_leaves_failed_credential_witness :
    unmarshalValue (marshalValue valA) = some valA ∧
    (SessionWithConfig envPingFail (some (marshalValue valA))).1 =
      Except.error AppError.rerunError ∧
    (SessionWithConfig envPingFail (some (marshalValue valA))).2.file =
      some (marshalValue valB) :=
  ⟨unmarshal_marshal valA,
   fatal_leaves_failed_credential envPingFail (marshalValue valA) valA valB
     "AccessDenied" "AccessDenied" (unmarshal_marshal valA) rfl rfl rfl rfl rfl rfl rfl rfl⟩

/-! ## Claim C5: both cache miss kinds derive exactly once before probing -/

/-- C5: whether the cache file is absent or present but unparseable, the
call invokes the exchanger derivation exactly once before any probe
check, so both load-failure kinds are handled identically. -/
theorem cache_miss_single_derivation (env : Env) (f0 : Option String)
    (hmiss : missFile f0) :
    countIf isDeriveEv (beforeFirstPing (SessionWithConfig env f0).2.trace) = 1 := by
  obtain ⟨t, ht, h1, h2, h3, h4⟩ := acquireCandidate_miss_trace env 0 ⟨f0, []⟩ hmiss
  rcases hq : acquireCandidate env 0 ⟨f0, []⟩ with ⟨r, st1⟩
  rw [hq] at ht; dsimp only at ht
  rw [List.nil_append] at ht
  have hpre : countIf isPingEv (Event.load false :: Event.derive :: t) = 0 := by
    simp [countIf_cons, isPingEv, h2]
  have hone : countIf isDeriveEv (Event.load false :: Event.derive :: t) = 1 := by
    simp [countIf_cons, isDeriveEv, h3]
  rcases r with e | v
  · rw [show (SessionWithConfig env f0).2.trace = Event.load false :: Event.derive :: t from by
      simp [SessionWithConfig, sessionWithConfigWrapper, hq, ht]]
    rw [beforeFirstPing_no_ping _ hpre, hone]
  · rcases hm : env.mainSessionOk 0 with _ | _
    · rw [show (SessionWithConfig env f0).2.trace = Event.load false :: Event.derive :: t from by
        simp [SessionWithConfig, sessionWithConfigWrapper, hq, hm, ht]]
      rw [beforeFirstPing_no_ping _ hpre, hone]
    · rcases hping0 : env.pingResult 0 with _ | m
      · rw [show (SessionWithConfig env f0).2.trace =
            (Event.load false :: Event.derive :: t) ++ Event.ping v true :: [] from by
          simp [SessionWithConfig, sessionWithConfigWrapper, hq, hm, hping0, push, ht]]
        rw [beforeFirstPing_append_ping _ hpre, hone]
      · by_cases hpg : env.removeOk && st1.file.isSome
        · have houter : SessionWithConfig env f0 =
              (match sessionWithConfigWrapperRerun env
                  ⟨none, Event.load false :: Event.derive ::
                    (t ++ [Event.ping v false, Event.purge true])⟩ with
                | (Except.error _, st4) => (Except.error AppError.rerunError, st4)
                | (Except.ok s2, st4) => (Except.ok s2, st4)) := by
            simp [SessionWithConfig, sessionWithConfigWrapper, hq, hm, hping0, purge, push,
              hpg, ht]
          obtain ⟨t2, ht2, hpu2, hd2, hp2, herr2⟩ := wrapperTrue_spec env
            ⟨none, Event.load false :: Event.derive ::
              (t ++ [Event.ping v false, Event.purge true])⟩
          rcases hw2 : sessionWithConfigWrapperRerun env
              ⟨none, Event.load false :: Event.derive ::
                (t ++ [Event.ping v false, Event.purge true])⟩ with ⟨r2, st4⟩
          rw [hw2] at ht2; dsimp only at ht2
          have htr : st4.trace = (Event.load false :: Event.derive :: t) ++
              Event.ping v false :: (Event.purge true :: t2) := by
            rw [ht2]; simp
          rw [houter, hw2]
          rcases r2 with e2 | s2 <;>
            · show countIf isDeriveEv (beforeFirstPing st4.trace) = 1
              rw [htr, beforeFirstPing_append_ping _ hpre, hone]
        · rw [show (SessionWithConfig env f0).2.trace =
              (Event.load false :: Event.derive :: t) ++
                Event.ping v false :: (Event.purge false :: []) from by
            simp [SessionWithConfig, sessionWithConfigWrapper, hq, hm, hping0, purge, push,
              hpg, ht]]
          rw [beforeFirstPing_append_ping _ hpre, hone]

/-- Witness for C5: a present but unparseable cache file derives once
before the probe. -/
theorem cache_miss_single_derivation_witness :
    missFile (some "garbage") ∧
    countIf isDeriveEv (beforeFirstPing
      (SessionWithConfig envBase (some "garbage")).2.trace) = 1 :=
  ⟨Or.inr ⟨"garbage", rfl, by decide⟩,
   cache_miss_single_derivation envBase (some "garbage")
     (Or.inr ⟨"garbage", rfl, by decide⟩)⟩

/-! ## Claim C7: a failed purge aborts the retry path -/

/-- C7: whenever a failed purge occurs in a call, it is the last event of
the call — nothing happens after it, in particular no re-derivation and
no exchanger invocation — and the call returns the fatal wrapped purge
error. -/
theorem purge_failure_fatal (env : Env) (f0 : Option String)
    (hmem : Event.purge false ∈ (SessionWithConfig env f0).2.trace) :
    (∃ pre, (SessionWithConfig env f0).2.trace = pre ++ [Event.purge false]) ∧
    (∃ c, (SessionWithConfig env f0).1 = Except.error (AppError.purgeError c)) := by
  obtain ⟨t, ht, hpu, hpi, hd, hp⟩ := acquireCandidate_trace env 0 ⟨f0, []⟩
  rcases hq : acquireCandidate env 0 ⟨f0, []⟩ with ⟨r, st1⟩
  rw [hq] at ht; dsimp only at ht
  rw [List.nil_append] at ht
  have hnot : Event.purge false ∉ t :=
    not_mem_of_countIf_zero hpu (by decide)
  rcases r with e | v
  · rw [show (SessionWithConfig env f0).2.trace = t from by
      simp [SessionWithConfig, sessionWithConfigWrapper, hq, ht]] at hmem
    exact absurd hmem hnot
  · rcases hm : env.mainSessionOk 0 with _ | _
    · rw [show (SessionWithConfig env f0).2.trace = t from by
        simp [SessionWithConfig, sessionWithConfigWrapper, hq, hm, ht]] at hmem
      exact absurd hmem hnot
    · rcases hping0 : env.pingResult 0 with _ | m
      · rw [show (SessionWithConfig env f0).2.trace = t ++ [Event.ping v true] from by
          simp [SessionWithConfig, sessionWithConfigWrapper, hq, hm, hping0, push, ht]] at hmem
        rcases List.mem_append.mp hmem with hin | hin
        · exact absurd hin hnot
        · simp at hin
      · by_cases hpg : env.removeOk && st1.file.isSome
        · have houter : SessionWithConfig env f0 =
              (match sessionWithConfigWrapperRerun env
                  ⟨none, t ++ [Event.ping v false, Event.purge true]⟩ with
                | (Except.error _, st4) => (Except.error AppError.rerunError, st4)
                | (Except.ok s2, st4) => (Except.ok s2, st4)) := by
            simp [SessionWithConfig, sessionWithConfigWrapper, hq, hm, hping0, purge, push,
              hpg, ht]
          obtain ⟨t2, ht2, hpu2, hd2, hp2, herr2⟩ := wrapperTrue_spec env
            ⟨none, t ++ [Event.ping v false, Event.purge true]⟩
          rcases hw2 : sessionWithConfigWrapperRerun env
              ⟨none, t ++ [Event.ping v false, Event.purge true]⟩ with ⟨r2, st4⟩
          rw [hw2] at ht2; dsimp only at ht2
          have hnot2 : Event.purge false ∉ t2 :=
            not_mem_of_countIf_zero hpu2 (by decide)
          rw [houter, hw2] at hmem
          rcases r2 with e2 | s2 <;>
            · dsimp only at hmem
              rw [ht2] at hmem
              rcases List.mem_append.mp hmem with hin | hin
              · rcases List.mem_append.mp hin with hin2 | hin2
                · exact absurd hin2 hnot
                · simp at hin2
              · exact absurd hin hnot2
        · refine ⟨⟨t ++ [Event.ping v false], ?_⟩,
            ⟨AppError.removeError env.removeErrMsg, ?_⟩⟩
          · simp [SessionWithConfig, sessionWithConfigWrapper, hq, hm, hping0, purge, push,
              hpg, ht]
          · simp [SessionWithConfig, sessionWithConfigWrapper, hq, hm, hping0, purge, push,
              hpg]

/-- Witness for C7: concrete run whose purge fails. -/
theorem purge_failure_fatal_witness :
    (Event.purge false ∈ (SessionWithConfig envNoRemove (some (marshalValue valA))).2.trace) ∧
    ((∃ pre, (SessionWithConfig envNoRemove (some (marshalValue valA))).2.trace =
        pre ++ [Event.purge false]) ∧
     (∃ c, (SessionWithConfig envNoRemove (some (marshalValue valA))).1 =
        Except.error (AppError.purgeError c))) :=
  ⟨by decide,
   purge_failure_fatal envNoRemove (some (marshalValue valA)) (by decide)⟩

/-! ## Claim C8: a derived credential is persisted before it is returned -/

/-- C8: whenever the exchanger derivation returns a credential, the cache
file already holds exactly its marshalled record; and when the store step
fails the derivation itself fails, never returning an unpersisted
credential. -/
theorem derive_persists_before_return (env : Env) (p : Nat) (st : St) :
    (∀ v, (bastionAccountCreds env p st).1 = .ok v →
      (bastionAccountCreds env p st).2.file = some (marshalValue v)) ∧
    (env.writeOk p = false → ∃ e, (bastionAccountCreds env p st).1 = .error e) := by
  constructor
  · intro v hv
    rcases hb : env.bastionSessionOk p with _ | _
    · simp [bastionAccountCreds, hb] at hv
    · rcases hx : env.exchangeResult p with e2 | w
      · simp [bastionAccountCreds, storeCredentials, push, hb, hx] at hv
      · rcases hw : env.writeOk p with _ | _
        · simp [bastionAccountCreds, storeCredentials, push, hb, hx, hw] at hv
        · simp only [bastionAccountCreds, storeCredentials, push, hb, hx, hw] at hv ⊢
          simp at hv
          subst hv
          simp
  · intro hw
    rcases hb : env.bastionSessionOk p with _ | _
    · exact ⟨AppError.bastionSessionError env.profile (env.bastionSessionErrMsg p),
        by simp [bastionAccountCreds, hb]⟩
    · rcases hx : env.exchangeResult p with e2 | w
      · exact ⟨AppError.storeError env.profile env.role (AppError.credsGetError e2),
          by simp [bastionAccountCreds, storeCredentials, push, hb, hx]⟩
      · exact ⟨AppError.storeError env.profile env.role
            (AppError.writeFileError (env.writeErrMsg p)),
          by simp [bastionAccountCreds, storeCredentials, push, hb, hx, hw]⟩

/-- Witness for C8: the all-ok environment persists valA before returning
it, and the failing-write environment makes the derivation fail. -/
theorem derive_persists_before_return_witness :
    (bastionAccountCreds envBase 0 ⟨none, []⟩).2.file = some (marshalValue valA) ∧
    (envNoWrite.writeOk 0 = false → ∃ e, (bastionAccountCreds envNoWrite 0 ⟨none, []⟩).1 =
      .error e) :=
  ⟨(derive_persists_before_return envBase 0 ⟨none, []⟩).1 valA rfl,
   (derive_persists_before_return envNoWrite 0 ⟨none, []⟩).2⟩

/-! ## Claim C9: what the terminal errors of a failing call wrap -/

/-- C9 evaluated at the failing input of Scenario C (cached credential,
probe fails on both passes, everything else succeeds): the caller
receives the rerun error, whose constructor carries no cause — the source
discards the inner error of the recursive call — and the inner second
validation failure is the ping fatal error, whose constructor also
carries no cause — the source passes no argument for its %v directive, so
the message renders the literal %!v(MISSING) instead of the probe's
error.  So the fatal second-validation error does not wrap the probe's
error. -/
theorem validation_error_not_wrapped :
    (SessionWithConfig envPingFail (some (marshalValue valA))).1 =
      Except.error AppError.rerunError ∧
    (sessionWithConfigWrapperRerun envPingFail ⟨none, []⟩).1 =
      Except.error AppError.pingFatalError ∧
    AppError.rerunError.render =
      "couldn't create main account session after first ping failed" ∧
    AppError.pingFatalError.render =
      "failed to ping aws servers with created session: %!v(MISSING)" :=
  ⟨rfl, rfl, rfl, rfl⟩

end AwsBastion
